import Mathlib

/-!
Verification of the digital-human real-time media pipeline client.

Shallow embedding of:
- the PCM ring-buffer worklet (src/s2s-client/public/worklets/audio-processor.js),
- the AudioManager duplex session (src/s2s-client/src/utils/audio-manager.ts),
- the WebGL side-by-side layout detector
  (src/s2s-client/src/hooks/useTransparentVideo.ts),
- the LiveTalking WebRTC negotiation (LiveTalkingWebRTC.connect/getSessionId).

Audio samples (Float32 in the source) are modelled as rationals: every claim
under verification concerns which sample values are stored, dropped, returned
in order, or replaced by silence (0), never floating-point rounding.
-/

/-- Capacity of the playback ring buffer: `this.bufferSize = 24000 * 5`. -/
def bufferSize : Nat := 24000 * 5

/-- State of the `PCMProcessor` worklet: `buffer` (a fixed `Float32Array` of
length `bufferSize`, modelled as a total map on indices), the two cursors and
the fill counter. All indices used by the code are taken modulo `bufferSize`. -/
structure PCMProcessor where
  buffer : Nat → ℚ
  writeIndex : Nat
  readIndex : Nat
  availableSamples : Nat

/-- Constructor state: `Float32Array` is zero-initialised, both cursors and the
counter start at 0. -/
def initProcessor : PCMProcessor :=
  { buffer := fun _ => 0, writeIndex := 0, readIndex := 0, availableSamples := 0 }

/-- One iteration of the `type === 'buffer'` loop in `port.onmessage`: store the
sample only when `availableSamples < bufferSize`, advancing the write cursor
modulo `bufferSize`; otherwise the sample is dropped. -/
def writeSample (s : PCMProcessor) (x : ℚ) : PCMProcessor :=
  if s.availableSamples < bufferSize then
    { s with
      buffer := Function.update s.buffer s.writeIndex x
      writeIndex := (s.writeIndex + 1) % bufferSize
      availableSamples := s.availableSamples + 1 }
  else s

/-- The whole `type === 'buffer'` message handler: iterate `writeSample` over
the incoming samples in order. -/
def writeBuffer (s : PCMProcessor) (xs : List ℚ) : PCMProcessor :=
  xs.foldl writeSample s

/-- The `type === 'clear'` message handler: reset both cursors and the counter
to 0 (the backing array is left as is). -/
def clearBuffer (s : PCMProcessor) : PCMProcessor :=
  { s with writeIndex := 0, readIndex := 0, availableSamples := 0 }

/-- One iteration of the playback loop in `process`: when samples are
available, emit `buffer[readIndex]` and advance the read cursor modulo
`bufferSize`; otherwise emit silence (0) and leave the state unchanged. -/
def readSample (s : PCMProcessor) : ℚ × PCMProcessor :=
  if 0 < s.availableSamples then
    (s.buffer s.readIndex,
     { s with
       readIndex := (s.readIndex + 1) % bufferSize
       availableSamples := s.availableSamples - 1 })
  else (0, s)

/-- The playback side of one `process` callback: fill an output frame of `n`
samples by iterating `readSample`, returning the frame and the new state. -/
def readFrame (s : PCMProcessor) : Nat → List ℚ × PCMProcessor
  | 0 => ([], s)
  | n + 1 =>
    let p := readSample s
    let q := readFrame p.2 n
    (p.1 :: q.1, q.2)

/-- The unread samples held by the ring buffer, oldest first: the
`availableSamples` entries starting at the read cursor, wrapping modulo
`bufferSize`. -/
def toQueue (s : PCMProcessor) : List ℚ :=
  (List.range s.availableSamples).map fun i => s.buffer ((s.readIndex + i) % bufferSize)

/-- Representation invariant of the ring buffer: the counter is bounded by the
capacity, both cursors are strictly below the capacity, and the write cursor
sits `availableSamples` positions (modulo capacity) after the read cursor. -/
def RingInv (s : PCMProcessor) : Prop :=
  s.availableSamples ≤ bufferSize ∧ s.writeIndex < bufferSize ∧
    s.readIndex < bufferSize ∧ s.writeIndex = (s.readIndex + s.availableSamples) % bufferSize

/-- An operation on the worklet state: a `{type:'buffer'}` message, one
playback callback draining `n` output samples, or a `{type:'clear'}` message. -/
inductive RingOp where
  | write (xs : List ℚ)
  | read (n : Nat)
  | clear

/-- Apply one operation to the worklet state. -/
def applyOp (s : PCMProcessor) : RingOp → PCMProcessor
  | .write xs => writeBuffer s xs
  | .read n => (readFrame s n).2
  | .clear => clearBuffer s

/-- Apply a sequence of operations in order. -/
def applyOps (s : PCMProcessor) (ops : List RingOp) : PCMProcessor :=
  ops.foldl applyOp s

/-- Successive playback frames: outputs of draining `n` samples for each `n`
in `ns`, threading the state. -/
def readSeq (s : PCMProcessor) : List Nat → List (List ℚ)
  | [] => []
  | n :: ns => (readFrame s n).1 :: readSeq (readFrame s n).2 ns

/-- The `ConnectionStatus` union type of audio-manager.ts. -/
inductive ConnectionStatus where
  | disconnected
  | connecting
  | ready
  | processing
  | error
deriving DecidableEq

/-- State of an `AudioManager`: the conversational status, the playback
worklet node (`null` until `startRecording` creates it; when present it holds
the ring-buffer state its port messages act on), the recording gate, whether
the websocket exists and is in the OPEN ready-state, and whether the captured
microphone `MediaStream` is held. -/
structure AudioManager where
  status : ConnectionStatus
  workletNode : Option PCMProcessor
  isRecording : Bool
  websocketOpen : Bool
  streamActive : Bool

/-- A message posted to the worklet port by the manager: `{type:'clear'}` or
`{type:'buffer', buffer: samples}`. -/
inductive WorkletMsg where
  | clear
  | buffer (xs : List ℚ)
deriving DecidableEq

/-- A parsed inbound JSON control message: `{type, message}` (the optional
`sessionId` field is never read by the handler). -/
structure JsonMsg where
  type : String
  message : String
deriving DecidableEq

/-- An inbound websocket event: a binary PCM payload (already decoded to its
sample list) or a textual payload, `none` when `JSON.parse` fails on it. -/
inductive WsEvent where
  | binary (data : List ℚ)
  | text (payload : Option JsonMsg)

/-- `AudioManager.handleAudioData`: bail out when the worklet node is `null`;
otherwise move `ready` to `processing` and post the samples to the worklet as
a `{type:'buffer'}` message (which the worklet handles with `writeBuffer`).
Returns the new manager state and the posted worklet messages. -/
def handleAudioData (m : AudioManager) (data : List ℚ) :
    AudioManager × List WorkletMsg :=
  match m.workletNode with
  | none => (m, [])
  | some w =>
    let m1 := if m.status = .ready then { m with status := .processing } else m
    ({ m1 with workletNode := some (writeBuffer w data) }, [.buffer data])

/-- `AudioManager.handleJsonMessage`: the `switch` over `data.message` for
`type === 'status'` (with `user_speaking` posting `{type:'clear'}` to the
worklet when it exists), the `error` branch, and the silent fall-through for
`history_cleared`, unknown messages and unknown types. -/
def handleJsonMessage (m : AudioManager) (d : JsonMsg) :
    AudioManager × List WorkletMsg :=
  if d.type = "status" then
    if d.message = "ready" then ({ m with status := .ready }, [])
    else if d.message = "user_speaking" then
      match m.workletNode with
      | some w => ({ m with status := .ready, workletNode := some (clearBuffer w) }, [.clear])
      | none => ({ m with status := .ready }, [])
    else if d.message = "processing" then ({ m with status := .processing }, [])
    else if d.message = "done" then ({ m with status := .ready }, [])
    else (m, [])
  else if d.type = "error" then ({ m with status := .error }, [])
  else (m, [])

/-- The `websocket.onmessage` handler: binary payloads go to
`handleAudioData`; textual payloads are `JSON.parse`d and dispatched to
`handleJsonMessage`, and when parsing throws the `catch` only logs — the
manager state is untouched and nothing is posted. -/
def onWsMessage (m : AudioManager) : WsEvent → AudioManager × List WorkletMsg
  | .binary data => handleAudioData m data
  | .text none => (m, [])
  | .text (some d) => handleJsonMessage m d

/-- `AudioManager.stopRecording`: only clears the recording gate. -/
def stopRecording (m : AudioManager) : AudioManager :=
  { m with isRecording := false }

/-- `AudioManager.resumeRecording`: only sets the recording gate. -/
def resumeRecording (m : AudioManager) : AudioManager :=
  { m with isRecording := true }

/-- Sum of squares of the stride-10 subsample of a capture frame: the loop
`for (let i = 0; i < inputData.length; i += 10) sum += inputData[i]^2`. -/
def stridedSquareSum (xs : List ℚ) : ℚ :=
  ((List.range xs.length).filter fun i => i % 10 == 0).foldl
    (fun sum i => sum + xs.getD i 0 * xs.getD i 0) 0

/-- The value whose square root the capture handler reports as `rms`:
`sum / (inputData.length / 10)`. The source applies `Math.sqrt` before the
observer callback; the square root is strictly monotone and has no exact
rational representative, so the metric is modelled by its square. -/
def meanSquare (xs : List ℚ) : ℚ :=
  stridedSquareSum xs / ((xs.length : ℚ) / 10)

/-- An outward effect of the capture handler: the `onAudioActivity` observer
callback (carrying the squared RMS level, see `meanSquare`) or a
`websocket.send` of the frame. -/
inductive OutEvent where
  | activity (level : ℚ)
  | send (xs : List ℚ)
deriving DecidableEq

/-- The `workletNode.port.onmessage` capture handler installed by
`startRecording`: every `input` frame first drives the activity metric, then
is sent on the websocket only when the socket is open and the recording gate
is set (the `audioChunkCount` logging counter is omitted). -/
def handleInput (m : AudioManager) (xs : List ℚ) : List OutEvent :=
  if m.websocketOpen && m.isRecording then
    [.activity (meanSquare xs), .send xs]
  else
    [.activity (meanSquare xs)]

/-- Which fragment shader `setupProgram` was last pointed at. -/
inductive ShaderProgram where
  | sbs
  | normal
deriving DecidableEq

/-- State of `WebGLVideoRenderer` relevant to layout detection: the cached
dimension pair, the detection flag, the classification, the canvas size and
the selected program. -/
structure RendererState where
  lastVideoWidth : Nat
  lastVideoHeight : Nat
  formatDetected : Bool
  isSideBySide : Bool
  canvasWidth : Nat
  canvasHeight : Nat
  activeProgram : Option ShaderProgram
deriving DecidableEq

/-- Renderer state before any detection ran. -/
def initRenderer : RendererState :=
  { lastVideoWidth := 0, lastVideoHeight := 0, formatDetected := false,
    isSideBySide := false, canvasWidth := 0, canvasHeight := 0,
    activeProgram := none }

/-- `WebGLVideoRenderer.checkSideBySide` on a frame reporting
`videoWidth × videoHeight`: do nothing unless both dimensions are positive;
return early when a format was already detected for the same dimension pair;
otherwise cache the pair, classify side-by-side exactly when
`videoWidth / videoHeight > 1.8`, and size the canvas to half width × height
(side-by-side, the canvas `width` setter truncates `videoWidth / 2` to an
integer) or to the full dimensions (plain), selecting the matching shader. -/
def checkSideBySide (st : RendererState) (videoWidth videoHeight : Nat) :
    RendererState :=
  if 0 < videoWidth ∧ 0 < videoHeight then
    if st.formatDetected ∧
        ¬(videoWidth ≠ st.lastVideoWidth ∨ videoHeight ≠ st.lastVideoHeight) then
      st
    else
      let sbs : Bool := decide ((1.8 : ℚ) < (videoWidth : ℚ) / (videoHeight : ℚ))
      if sbs then
        { lastVideoWidth := videoWidth, lastVideoHeight := videoHeight,
          formatDetected := true, isSideBySide := sbs,
          canvasWidth := videoWidth / 2, canvasHeight := videoHeight,
          activeProgram := some .sbs }
      else
        { lastVideoWidth := videoWidth, lastVideoHeight := videoHeight,
          formatDetected := true, isSideBySide := sbs,
          canvasWidth := videoWidth, canvasHeight := videoHeight,
          activeProgram := some .normal }
  else st

/-- The `/offer` exchange as seen by `LiveTalkingWebRTC.connect`: the HTTP
success flag (`response.ok`), and the decoded body fields it reads
(`code`, `msg`, `sessionid`). -/
structure OfferResponse where
  ok : Bool
  code : Option Int
  msg : Option String
  sessionid : Int
deriving DecidableEq

/-- State of a `LiveTalkingWebRTC` instance: its `sessionId` field
(constructor value 0). -/
structure LiveTalkingWebRTC where
  sessionId : Int
deriving DecidableEq

/-- A freshly constructed `LiveTalkingWebRTC`. -/
def initWebRTC : LiveTalkingWebRTC := { sessionId := 0 }

/-- `LiveTalkingWebRTC.connect`, from the point the `/offer` response is in
hand: a non-success HTTP status throws; a body with `code === -1` throws
(with `data.msg` when present); otherwise `sessionId` is assigned
`data.sessionid` and returned. The thrown error propagates to the caller
(after the `onError` callback); the instance state is returned alongside. -/
def connect (st : LiveTalkingWebRTC) (resp : OfferResponse) :
    Except String Int × LiveTalkingWebRTC :=
  if !resp.ok then
    (.error "LiveTalking offer failed", st)
  else if resp.code = some (-1) then
    (.error (resp.msg.getD "LiveTalking connection failed"), st)
  else
    (.ok resp.sessionid, { st with sessionId := resp.sessionid })

/-- `LiveTalkingWebRTC.getSessionId`. -/
def getSessionId (st : LiveTalkingWebRTC) : Int :=
  st.sessionId

/-- Whether an `/offer` exchange result is a thrown failure. -/
def isFailure (r : Except String Int) : Bool :=
  match r with
  | .error _ => true
  | .ok _ => false

theorem bufferSize_pos : 0 < bufferSize := by norm_num [bufferSize]

theorem mapRange_congr {β : Type} (f g : Nat → β) (n : Nat)
    (h : ∀ i, i < n → f i = g i) :
    (List.range n).map f = (List.range n).map g := by
  induction n with
  | zero => rfl
  | succ n ih =>
    rw [List.range_succ, List.map_append, List.map_append,
      ih (fun i hi => h i (by omega))]
    simp [h n (by omega)]

theorem toQueue_init : toQueue initProcessor = [] := rfl

theorem toQueue_empty {s : PCMProcessor} (h : s.availableSamples = 0) :
    toQueue s = [] := by
  unfold toQueue
  rw [h]
  rfl

theorem writeSample_inv {s : PCMProcessor} (hinv : RingInv s) (x : ℚ) :
    RingInv (writeSample s x) := by
  obtain ⟨hle, hw, hr, heq⟩ := hinv
  unfold writeSample
  by_cases h : s.availableSamples < bufferSize
  · rw [if_pos h]
    refine ⟨by dsimp only; omega, Nat.mod_lt _ bufferSize_pos, hr, ?_⟩
    dsimp only
    rw [heq, Nat.mod_add_mod, Nat.add_assoc]
  · rw [if_neg h]
    exact ⟨hle, hw, hr, heq⟩

theorem toQueue_writeSample {s : PCMProcessor} (hinv : RingInv s)
    (h : s.availableSamples < bufferSize) (x : ℚ) :
    toQueue (writeSample s x) = toQueue s ++ [x] := by
  obtain ⟨hle, hw, hr, heq⟩ := hinv
  unfold writeSample toQueue
  rw [if_pos h]
  dsimp only
  rw [List.range_succ, List.map_append]
  congr 1
  · apply mapRange_congr
    intro i hi
    apply Function.update_noteq
    rw [heq]
    intro hmod
    have hmm : i ≡ s.availableSamples [MOD bufferSize] :=
      Nat.ModEq.add_left_cancel' s.readIndex hmod
    have : i % bufferSize = s.availableSamples % bufferSize := hmm
    rw [Nat.mod_eq_of_lt (lt_trans hi h), Nat.mod_eq_of_lt h] at this
    omega
  · simp only [List.map_cons, List.map_nil]
    rw [← heq, Function.update_same]

theorem readSample_pos {s : PCMProcessor} (ha : 0 < s.availableSamples) :
    readSample s = (s.buffer s.readIndex,
      { s with readIndex := (s.readIndex + 1) % bufferSize,
               availableSamples := s.availableSamples - 1 }) := by
  unfold readSample
  rw [if_pos ha]

theorem readSample_zero {s : PCMProcessor} (ha : s.availableSamples = 0) :
    readSample s = (0, s) := by
  unfold readSample
  rw [if_neg (by omega)]

theorem readSample_inv {s : PCMProcessor} (hinv : RingInv s) :
    RingInv (readSample s).2 := by
  obtain ⟨hle, hw, hr, heq⟩ := hinv
  by_cases ha : 0 < s.availableSamples
  · rw [readSample_pos ha]
    refine ⟨by dsimp only; omega, hw, Nat.mod_lt _ bufferSize_pos, ?_⟩
    dsimp only
    rw [Nat.mod_add_mod,
      show s.readIndex + 1 + (s.availableSamples - 1)
          = s.readIndex + s.availableSamples from by omega]
    exact heq
  · rw [readSample_zero (by omega)]
    exact ⟨hle, hw, hr, heq⟩

theorem toQueue_readSample {s : PCMProcessor} (hr : s.readIndex < bufferSize)
    (ha : 0 < s.availableSamples) :
    toQueue s = s.buffer s.readIndex :: toQueue (readSample s).2 := by
  obtain ⟨b, hb⟩ : ∃ b, s.availableSamples = b + 1 :=
    ⟨s.availableSamples - 1, by omega⟩
  rw [readSample_pos ha]
  unfold toQueue
  dsimp only
  rw [hb]
  rw [List.range_succ_eq_map, List.map_cons, List.map_map]
  simp only [Nat.add_zero, Nat.mod_eq_of_lt hr, Nat.add_sub_cancel]
  congr 1
  apply mapRange_congr
  intro i hi
  simp only [Function.comp_apply, Nat.mod_add_mod]
  rw [show s.readIndex + 1 + i = s.readIndex + Nat.succ i from by omega]

theorem readFrame_spec (n : Nat) :
    ∀ s : PCMProcessor, s.readIndex < bufferSize →
      (readFrame s n).1 =
          (toQueue s).take n ++ List.replicate (n - s.availableSamples) (0 : ℚ)
        ∧ (readFrame s n).2.availableSamples = s.availableSamples - n
        ∧ (readFrame s n).2.readIndex < bufferSize := by
  induction n with
  | zero => intro s hr; exact ⟨by simp [readFrame], by simp [readFrame], hr⟩
  | succ n ih =>
    intro s hr
    by_cases ha : 0 < s.availableSamples
    · have hq := toQueue_readSample hr ha
      have hs' : (readSample s).2.readIndex < bufferSize := by
        rw [readSample_pos ha]
        exact Nat.mod_lt _ bufferSize_pos
      have ha' : (readSample s).2.availableSamples = s.availableSamples - 1 := by
        rw [readSample_pos ha]
      obtain ⟨h1, h2, h3⟩ := ih (readSample s).2 hs'
      have hfr : readFrame s (n + 1)
          = ((readSample s).1 :: (readFrame (readSample s).2 n).1,
             (readFrame (readSample s).2 n).2) := rfl
      rw [hfr]
      refine ⟨?_, ?_, h3⟩
      · dsimp only
        rw [h1, hq, List.take_succ_cons, ha', readSample_pos ha]
        dsimp only
        rw [show n + 1 - s.availableSamples
            = n - (s.availableSamples - 1) from by omega, List.cons_append]
      · dsimp only
        rw [h2, ha']
        omega
    · have ha0 : s.availableSamples = 0 := by omega
      have hq : toQueue s = [] := toQueue_empty ha0
      obtain ⟨h1, h2, h3⟩ := ih s hr
      have hfr : readFrame s (n + 1)
          = ((readSample s).1 :: (readFrame (readSample s).2 n).1,
             (readFrame (readSample s).2 n).2) := rfl
      rw [hfr, readSample_zero ha0]
      dsimp only
      refine ⟨?_, ?_, h3⟩
      · rw [h1, hq, ha0]
        simp [List.replicate_succ]
      · rw [h2, ha0]
        omega

theorem readFrame_empty (n : Nat) (s : PCMProcessor)
    (ha : s.availableSamples = 0) :
    readFrame s n = (List.replicate n (0 : ℚ), s) := by
  induction n with
  | zero => rfl
  | succ n ih =>
    have hfr : readFrame s (n + 1)
        = ((readSample s).1 :: (readFrame (readSample s).2 n).1,
           (readFrame (readSample s).2 n).2) := rfl
    rw [hfr, readSample_zero ha]
    dsimp only
    rw [ih, List.replicate_succ]

theorem readSeq_empty (ns : List Nat) :
    ∀ s : PCMProcessor, s.availableSamples = 0 →
      readSeq s ns = ns.map fun n => List.replicate n (0 : ℚ) := by
  induction ns with
  | nil => intro s _; rfl
  | cons n ns ih =>
    intro s h
    show (readFrame s n).1 :: readSeq (readFrame s n).2 ns = _
    rw [readFrame_empty n s h]
    dsimp only
    rw [ih s h, List.map_cons]

theorem writeBuffer_spec (xs : List ℚ) :
    ∀ s : PCMProcessor, RingInv s →
      RingInv (writeBuffer s xs)
        ∧ (writeBuffer s xs).availableSamples
            = min (s.availableSamples + xs.length) bufferSize
        ∧ (writeBuffer s xs).readIndex = s.readIndex
        ∧ toQueue (writeBuffer s xs)
            = toQueue s ++ xs.take (bufferSize - s.availableSamples) := by
  induction xs with
  | nil =>
    intro s hinv
    refine ⟨hinv, ?_, rfl, by simp [writeBuffer]⟩
    have := hinv.1
    simp [writeBuffer]
    omega
  | cons x xs ih =>
    intro s hinv
    have hle := hinv.1
    have hwb : writeBuffer s (x :: xs) = writeBuffer (writeSample s x) xs := rfl
    by_cases h : s.availableSamples < bufferSize
    · have hinv' := writeSample_inv hinv x
      have hav : (writeSample s x).availableSamples = s.availableSamples + 1 := by
        unfold writeSample
        rw [if_pos h]
      have hri : (writeSample s x).readIndex = s.readIndex := by
        unfold writeSample
        rw [if_pos h]
      have hq := toQueue_writeSample hinv h x
      obtain ⟨i1, i2, i3, i4⟩ := ih (writeSample s x) hinv'
      rw [hwb]
      refine ⟨i1, ?_, ?_, ?_⟩
      · rw [i2, hav]
        simp only [List.length_cons]
        omega
      · rw [i3, hri]
      · rw [i4, hq, hav]
        obtain ⟨c, hc⟩ : ∃ c, bufferSize - s.availableSamples = c + 1 :=
          ⟨bufferSize - s.availableSamples - 1, by omega⟩
        rw [hc, show bufferSize - (s.availableSamples + 1) = c from by omega,
          List.take_succ_cons, List.append_assoc]
        rfl
    · have ha : s.availableSamples = bufferSize := by omega
      have hws : writeSample s x = s := by
        unfold writeSample
        rw [if_neg h]
      obtain ⟨i1, i2, i3, i4⟩ := ih s hinv
      rw [hwb, hws]
      refine ⟨i1, ?_, i3, ?_⟩
      · rw [i2]
        simp only [List.length_cons]
        omega
      · rw [i4, ha]
        simp

theorem initProcessor_inv : RingInv initProcessor := by
  refine ⟨?_, ?_, ?_, ?_⟩ <;> simp [RingInv, initProcessor, bufferSize]

theorem clearBuffer_inv (s : PCMProcessor) : RingInv (clearBuffer s) := by
  refine ⟨?_, ?_, ?_, ?_⟩ <;> simp [clearBuffer, bufferSize]

theorem readFrame_inv (n : Nat) :
    ∀ s : PCMProcessor, RingInv s → RingInv (readFrame s n).2 := by
  induction n with
  | zero => intro s h; exact h
  | succ n ih =>
    intro s h
    show RingInv (readFrame (readSample s).2 n).2
    exact ih _ (readSample_inv h)

theorem applyOp_inv (s : PCMProcessor) (op : RingOp) (h : RingInv s) :
    RingInv (applyOp s op) := by
  cases op with
  | write xs => exact (writeBuffer_spec xs s h).1
  | read n => exact readFrame_inv n s h
  | clear => exact clearBuffer_inv s

theorem applyOps_inv (ops : List RingOp) :
    ∀ s : PCMProcessor, RingInv s → RingInv (applyOps s ops) := by
  induction ops with
  | nil => intro s h; exact h
  | cons op ops ih =>
    intro s h
    show RingInv (applyOps (applyOp s op) ops)
    exact ih _ (applyOp_inv s op h)

/-- Claim C1: for every sequence of write (`{type:'buffer'}`) and read
(`process` output) operations on the ring buffer, `availableSamples` stays in
[0, capacity] (capacity = 24000 * 5 = 120000) and `writeIndex` and
`readIndex` each stay strictly in [0, capacity), with every cursor advance
wrapping modulo capacity. (Counts and indices are naturals, so the lower
bounds hold by typing; `clear` operations are covered as well.) -/
theorem C1_ring_buffer_invariant :
    (∀ ops : List RingOp,
        (applyOps initProcessor ops).availableSamples ≤ bufferSize
          ∧ (applyOps initProcessor ops).writeIndex < bufferSize
          ∧ (applyOps initProcessor ops).readIndex < bufferSize)
      ∧ (∀ (s : PCMProcessor) (x : ℚ), s.availableSamples < bufferSize →
          (writeSample s x).writeIndex = (s.writeIndex + 1) % bufferSize)
      ∧ (∀ s : PCMProcessor, 0 < s.availableSamples →
          (readSample s).2.readIndex = (s.readIndex + 1) % bufferSize) := by
  refine ⟨?_, ?_, ?_⟩
  · intro ops
    obtain ⟨h1, h2, h3, _⟩ := applyOps_inv ops initProcessor initProcessor_inv
    exact ⟨h1, h2, h3⟩
  · intro s x h
    unfold writeSample
    rw [if_pos h]
  · intro s h
    rw [readSample_pos h]

/-- Witness for C1: the cursor-advance conjuncts at concrete states. -/
theorem C1_ring_buffer_invariant_witness :
    (writeSample initProcessor 1).writeIndex
        = (initProcessor.writeIndex + 1) % bufferSize
      ∧ (readSample (writeBuffer initProcessor [1])).2.readIndex
        = ((writeBuffer initProcessor [1]).readIndex + 1) % bufferSize :=
  ⟨C1_ring_buffer_invariant.2.1 initProcessor 1 (by decide),
   C1_ring_buffer_invariant.2.2 (writeBuffer initProcessor [1]) (by decide)⟩

/-- Claim C2: starting from an empty ring buffer, writing capacity + k
samples (k > 0) and then draining all available samples yields exactly
capacity samples equal, in order, to the first capacity samples written;
overflow samples are dropped (drop newest) and no unread stored sample is
overwritten. -/
theorem C2_overflow_drops_newest (xs : List ℚ) (k : Nat) (hk : 0 < k)
    (hlen : xs.length = bufferSize + k) :
    (writeBuffer initProcessor xs).availableSamples = bufferSize
      ∧ (readFrame (writeBuffer initProcessor xs) bufferSize).1
          = xs.take bufferSize
      ∧ (readFrame (writeBuffer initProcessor xs) bufferSize).2.availableSamples
          = 0 := by
  obtain ⟨hinv, hav, hri, hq⟩ := writeBuffer_spec xs initProcessor initProcessor_inv
  rw [toQueue_init, List.nil_append] at hq
  have hav' : (writeBuffer initProcessor xs).availableSamples = bufferSize := by
    rw [hav, hlen]
    show min (initProcessor.availableSamples + (bufferSize + k)) bufferSize = _
    omega
  have hr0 : (writeBuffer initProcessor xs).readIndex < bufferSize := by
    rw [hri]
    exact bufferSize_pos
  obtain ⟨o1, o2, _⟩ := readFrame_spec bufferSize (writeBuffer initProcessor xs) hr0
  refine ⟨hav', ?_, ?_⟩
  · rw [o1, hq, hav']
    show (xs.take (bufferSize - initProcessor.availableSamples)).take bufferSize
        ++ List.replicate (bufferSize - bufferSize) 0 = xs.take bufferSize
    rw [Nat.sub_self, List.replicate_zero, List.append_nil, List.take_take]
    show xs.take (min bufferSize (bufferSize - 0)) = xs.take bufferSize
    rw [Nat.sub_zero, Nat.min_self]
  · rw [o2, hav']
    omega

/-- Witness for C2: writing capacity + 1 zeros then draining returns the
first capacity of them. -/
theorem C2_overflow_drops_newest_witness :
    (writeBuffer initProcessor (List.replicate (bufferSize + 1) 0)).availableSamples
        = bufferSize
      ∧ (readFrame (writeBuffer initProcessor (List.replicate (bufferSize + 1) 0))
            bufferSize).1
          = (List.replicate (bufferSize + 1) (0 : ℚ)).take bufferSize
      ∧ (readFrame (writeBuffer initProcessor (List.replicate (bufferSize + 1) 0))
            bufferSize).2.availableSamples = 0 :=
  C2_overflow_drops_newest (List.replicate (bufferSize + 1) 0) 1 (by omega)
    (by simp)

/-- Claim C3: for every ring-buffer state (its read cursor in range, as every
reachable state has, see C1) with `availableSamples < n`, reading `n` samples
returns the `availableSamples` oldest buffered samples in order followed by
`n - availableSamples` zeros, and afterwards `availableSamples` is 0; the
read is a total function (it never fails or blocks). -/
theorem C3_underrun_silence_fill (s : PCMProcessor) (n : Nat)
    (hr : s.readIndex < bufferSize) (hn : s.availableSamples < n) :
    (readFrame s n).1 = toQueue s ++ List.replicate (n - s.availableSamples) 0
      ∧ (readFrame s n).2.availableSamples = 0 := by
  obtain ⟨o1, o2, _⟩ := readFrame_spec n s hr
  constructor
  · rw [o1]
    congr 1
    apply List.take_of_length_le
    have : (toQueue s).length = s.availableSamples := by
      simp [toQueue]
    omega
  · rw [o2]
    omega

/-- Witness for C3: draining 5 samples from a buffer holding 1, 2, 3. -/
theorem C3_underrun_silence_fill_witness :
    (readFrame (writeBuffer initProcessor [1, 2, 3]) 5).1
        = toQueue (writeBuffer initProcessor [1, 2, 3])
          ++ List.replicate (5 - (writeBuffer initProcessor [1, 2, 3]).availableSamples) 0
      ∧ (readFrame (writeBuffer initProcessor [1, 2, 3]) 5).2.availableSamples = 0 :=
  C3_underrun_silence_fill (writeBuffer initProcessor [1, 2, 3]) 5
    (by decide) (by decide)

/-- Claim C4: applying `{type:'clear'}` to any ring-buffer state resets
`writeIndex`, `readIndex` and `availableSamples` to 0, and every subsequent
read (any sequence of playback frames with no intervening write) returns
only zeros. -/
theorem C4_clear_resets_and_silences (s : PCMProcessor) (ns : List Nat) :
    (clearBuffer s).writeIndex = 0
      ∧ (clearBuffer s).readIndex = 0
      ∧ (clearBuffer s).availableSamples = 0
      ∧ readSeq (clearBuffer s) ns = ns.map fun n => List.replicate n (0 : ℚ) :=
  ⟨rfl, rfl, rfl, readSeq_empty ns (clearBuffer s) rfl⟩

/-- Counterexample to claim C5 as stated: in a state whose playback worklet
node is absent (`workletNode === null`, its value before `startRecording`),
a binary payload received while the status is 'ready' does not transition the
status to 'processing' (`handleAudioData` returns immediately), and a
`user_speaking` status message sends no clear command to the ring buffer. -/
theorem C5_status_machine_counterexample :
    (handleAudioData
        { status := .ready, workletNode := none, isRecording := false,
          websocketOpen := true, streamActive := true } [1]).1.status
        ≠ ConnectionStatus.processing
      ∧ (handleJsonMessage
          { status := .ready, workletNode := none, isRecording := false,
            websocketOpen := true, streamActive := true }
          { type := "status", message := "user_speaking" }).2 = [] := by
  constructor
  · decide
  · rfl

/-- Claim C5 as amended: when the playback worklet node exists, receiving a
binary audio payload in status 'ready' transitions the status to
'processing'; from status 'processing', receiving
`{type:'status', message:'done'}` transitions to 'ready'; and from every
status, receiving `{type:'status', message:'user_speaking'}` transitions to
'ready' and, when the worklet node exists, sends a clear command to the
playback ring buffer (which resets it). -/
theorem C5_status_machine :
    (∀ (m : AudioManager) (w : PCMProcessor) (data : List ℚ),
        m.status = .ready → m.workletNode = some w →
          (handleAudioData m data).1.status = .processing)
      ∧ (∀ m : AudioManager, m.status = .processing →
          (handleJsonMessage m { type := "status", message := "done" }).1.status
            = .ready)
      ∧ (∀ (m : AudioManager) (w : PCMProcessor),
          (handleJsonMessage m
              { type := "status", message := "user_speaking" }).1.status
              = .ready
            ∧ (m.workletNode = some w →
                (handleJsonMessage m
                    { type := "status", message := "user_speaking" }).2
                    = [.clear]
                  ∧ (handleJsonMessage m
                      { type := "status", message := "user_speaking" }).1.workletNode
                      = some (clearBuffer w))) := by
  refine ⟨?_, ?_, ?_⟩
  · intro m w data hst hw
    unfold handleAudioData
    rw [hw]
    dsimp only
    rw [if_pos hst]
  · intro m hst
    unfold handleJsonMessage
    simp
  · intro m w
    unfold handleJsonMessage
    simp
    cases hw : m.workletNode with
    | none => exact ⟨rfl, by intro h; exact absurd h (by simp)⟩
    | some w0 =>
      refine ⟨rfl, ?_⟩
      intro h
      rw [Option.some_inj] at h
      subst h
      exact ⟨rfl, rfl⟩

/-- Witness for C5 (amended): the three transitions at a concrete manager
state whose worklet node holds the empty ring buffer. -/
theorem C5_status_machine_witness :
    (handleAudioData
        { status := .ready, workletNode := some initProcessor,
          isRecording := true, websocketOpen := true, streamActive := true }
        [1]).1.status = .processing
      ∧ (handleJsonMessage
          { status := .processing, workletNode := some initProcessor,
            isRecording := true, websocketOpen := true, streamActive := true }
          { type := "status", message := "done" }).1.status = .ready
      ∧ (handleJsonMessage
          { status := .processing, workletNode := some initProcessor,
            isRecording := true, websocketOpen := true, streamActive := true }
          { type := "status", message := "user_speaking" }).2 = [.clear] :=
  ⟨C5_status_machine.1 _ initProcessor [1] rfl rfl,
   C5_status_machine.2.1 _ rfl,
   ((C5_status_machine.2.2 _ initProcessor).2 rfl).1⟩

/-- Claim C6: an inbound textual payload that is not valid JSON is logged and
dropped by the `catch` branch of the message handler: the manager state is
unchanged (in particular the conversational status and the open connection),
and nothing is posted to the worklet. -/
theorem C6_malformed_text_dropped (m : AudioManager) :
    onWsMessage m (.text none) = (m, [])
      ∧ (onWsMessage m (.text none)).1.status = m.status
      ∧ (onWsMessage m (.text none)).1.websocketOpen = m.websocketOpen :=
  ⟨rfl, rfl, rfl⟩

/-- Claim C7: layout detection classifies a video as side-by-side exactly
when width/height exceeds 1.8 (in particular 480×270, ratio 16/9 ≈ 1.78, and
640×480, ratio 4/3 ≈ 1.33, are both classified plain); a side-by-side
classification resizes the canvas to half the video width (the canvas width
setter truncates the halved width) by the full height, otherwise to the full
video dimensions; and detection does not re-run — the renderer state is
untouched — when a frame reports dimensions identical to the last detected
pair. -/
theorem C7_layout_detection :
    (∀ (st : RendererState) (w h : Nat), 0 < w → 0 < h →
        ¬(st.formatDetected = true ∧ st.lastVideoWidth = w ∧ st.lastVideoHeight = h) →
          ((checkSideBySide st w h).isSideBySide = true
              ↔ (1.8 : ℚ) < (w : ℚ) / (h : ℚ))
            ∧ (checkSideBySide st w h).canvasWidth
                = (if (1.8 : ℚ) < (w : ℚ) / (h : ℚ) then w / 2 else w)
            ∧ (checkSideBySide st w h).canvasHeight = h)
      ∧ (checkSideBySide initRenderer 480 270).isSideBySide = false
      ∧ (checkSideBySide initRenderer 640 480).isSideBySide = false
      ∧ (∀ (st : RendererState) (w h : Nat),
          st.formatDetected = true → st.lastVideoWidth = w →
            st.lastVideoHeight = h → checkSideBySide st w h = st) := by
  refine ⟨?_, ?_, ?_, ?_⟩
  · intro st w h hw hh hnew
    unfold checkSideBySide
    rw [if_pos ⟨hw, hh⟩, if_neg (by
      intro hc
      exact hnew ⟨hc.1, by omega, by omega⟩)]
    dsimp only
    by_cases hsbs : (1.8 : ℚ) < (w : ℚ) / (h : ℚ)
    · rw [if_pos (by simpa using hsbs)]
      exact ⟨by simp [hsbs], by rw [if_pos hsbs], rfl⟩
    · rw [if_neg (by simpa using hsbs)]
      exact ⟨by simp [hsbs], by rw [if_neg hsbs], rfl⟩
  · simp only [checkSideBySide, initRenderer]
    norm_num
  · simp only [checkSideBySide, initRenderer]
    norm_num
  · intro st w h hd hlw hlh
    unfold checkSideBySide
    by_cases hpos : 0 < w ∧ 0 < h
    · rw [if_pos hpos, if_pos ⟨hd, by omega⟩]
    · rw [if_neg hpos]

/-- Witness for C7: a 1000×500 frame (ratio 2 > 1.8) on the fresh renderer is
classified side-by-side with a 500×500 canvas. -/
theorem C7_layout_detection_witness :
    ((checkSideBySide initRenderer 1000 500).isSideBySide = true
        ↔ (1.8 : ℚ) < (1000 : ℚ) / (500 : ℚ))
      ∧ (checkSideBySide initRenderer 1000 500).canvasWidth
          = (if (1.8 : ℚ) < ((1000 : Nat) : ℚ) / ((500 : Nat) : ℚ)
              then (1000 : Nat) / 2 else 1000)
      ∧ (checkSideBySide initRenderer 1000 500).canvasHeight = 500 :=
  C7_layout_detection.1 initRenderer 1000 500 (by norm_num) (by norm_num)
    (by simp [initRenderer])

/-- Claim C8: on a fresh `LiveTalkingWebRTC`, an `/offer` response with a
non-success HTTP status or with `code === -1` makes `connect` fail (throw)
and `getSessionId` still returns 0 afterwards; a successful exchange whose
response carries `sessionid` n makes `connect` resolve with n and
`getSessionId` return n. -/
theorem C8_negotiation :
    (∀ resp : OfferResponse, resp.ok = false ∨ resp.code = some (-1) →
        isFailure (connect initWebRTC resp).1 = true
          ∧ getSessionId (connect initWebRTC resp).2 = 0)
      ∧ (∀ resp : OfferResponse, resp.ok = true → resp.code ≠ some (-1) →
          (connect initWebRTC resp).1 = .ok resp.sessionid
            ∧ getSessionId (connect initWebRTC resp).2 = resp.sessionid) := by
  constructor
  · intro resp hfail
    unfold connect
    rcases hfail with hok | hcode
    · rw [hok]
      exact ⟨rfl, rfl⟩
    · by_cases hok : resp.ok
      · rw [hok]
        rw [if_neg (by simp), if_pos hcode]
        exact ⟨rfl, rfl⟩
      · rw [Bool.not_eq_true] at hok
        rw [hok]
        exact ⟨rfl, rfl⟩
  · intro resp hok hcode
    unfold connect
    rw [hok]
    rw [if_neg (by simp), if_neg hcode]
    exact ⟨rfl, rfl⟩

/-- Witness for C8: a `code: -1` response fails and leaves the session id 0;
a success response with `sessionid: 42` yields 42. -/
theorem C8_negotiation_witness :
    (isFailure (connect initWebRTC
          { ok := true, code := some (-1), msg := none, sessionid := 7 }).1 = true
        ∧ getSessionId (connect initWebRTC
            { ok := true, code := some (-1), msg := none, sessionid := 7 }).2 = 0)
      ∧ ((connect initWebRTC
            { ok := true, code := none, msg := none, sessionid := 42 }).1
            = .ok (42 : Int)
          ∧ getSessionId (connect initWebRTC
              { ok := true, code := none, msg := none, sessionid := 42 }).2 = 42) :=
  ⟨C8_negotiation.1 { ok := true, code := some (-1), msg := none, sessionid := 7 }
      (Or.inr rfl),
   C8_negotiation.2 { ok := true, code := none, msg := none, sessionid := 42 }
      rfl (by simp)⟩

/-- Claim C9: `stopRecording` changes only the recording gate (to false) and
`resumeRecording` only sets it back to true — the worklet node, the socket,
the stream and the status are untouched; while paused, every captured input
frame still drives the audio-activity metric (the stride-10 RMS, modelled by
its square `meanSquare`) reported to the observer, and only the outbound
send of the frame is suppressed. -/
theorem C9_pause_only_gates_sending :
    (∀ m : AudioManager, stopRecording m
        = { m with isRecording := false })
      ∧ (∀ m : AudioManager, resumeRecording m
          = { m with isRecording := true })
      ∧ (∀ (m : AudioManager) (xs : List ℚ), m.isRecording = false →
          handleInput m xs = [.activity (meanSquare xs)])
      ∧ (∀ (m : AudioManager) (xs : List ℚ),
          m.isRecording = true → m.websocketOpen = true →
            handleInput m xs = [.activity (meanSquare xs), .send xs]) := by
  refine ⟨fun m => rfl, fun m => rfl, ?_, ?_⟩
  · intro m xs h
    unfold handleInput
    rw [h, Bool.and_false, if_neg (by simp)]
  · intro m xs hrec hopen
    unfold handleInput
    rw [hrec, hopen]
    rfl

/-- Witness for C9: the capture handler on a paused and on a recording
manager state, with the frame [1, 2]. -/
theorem C9_pause_only_gates_sending_witness :
    handleInput
        { status := .ready, workletNode := none, isRecording := false,
          websocketOpen := true, streamActive := true } [1, 2]
        = [.activity (meanSquare [1, 2])]
      ∧ handleInput
          { status := .ready, workletNode := none, isRecording := true,
            websocketOpen := true, streamActive := true } [1, 2]
          = [.activity (meanSquare [1, 2]), .send [1, 2]] :=
  ⟨C9_pause_only_gates_sending.2.2.1 _ [1, 2] rfl,
   C9_pause_only_gates_sending.2.2.2 _ [1, 2] rfl rfl⟩

/-- Claim C10 (implicit): a binary audio payload received while the playback
worklet node has not been created (`workletNode === null`) is discarded
entirely: nothing is posted for playback and the manager state — in
particular the conversational status — is unchanged. -/
theorem C10_audio_dropped_without_worklet (m : AudioManager) (data : List ℚ)
    (h : m.workletNode = none) :
    handleAudioData m data = (m, []) := by
  unfold handleAudioData
  rw [h]

/-- Witness for C10: a payload arriving in status 'ready' before
`startRecording` ran. -/
theorem C10_audio_dropped_without_worklet_witness :
    handleAudioData
        { status := .ready, workletNode := none, isRecording := false,
          websocketOpen := true, streamActive := false } [3]
      = ({ status := .ready, workletNode := none, isRecording := false,
           websocketOpen := true, streamActive := false }, []) :=
  C10_audio_dropped_without_worklet _ [3] rfl
